import Mathlib

/-!
Shallow embedding of `google/cloud/security/crawler/resources.py` (forseti-security
crawler): the resource type registry (`FACTORIES`), the `Resource` entity with its
memoized policy accessors, the child iterators, and the recursive `accept`
traversal.  Raw records are string-keyed mappings; Python exceptions are modelled
by the `PyErr` type and `Except`.
-/

/-- A raw record handed to a resource by the client: an ordered string-keyed
mapping, looked up by first match (Python dict semantics for the small records
involved here: one binding per key). -/
abbrev Data := List (String × String)

/-- First value bound to `k` in `d`, if any (Python `d[k]` success case). -/
def lookupData (d : Data) (k : String) : Option String :=
  match d with
  | [] => none
  | (k', v) :: rest => if k' = k then some v else lookupData rest k

/-- Python exceptions that the crawler code can raise: `KeyError` re-raised by
`Resource.__getitem__` (carrying the key and the raw record), `TypeError` from
`len(None)` in `Resource.__init__`, `ValueError` from `int(...)`,
`AttributeError` from calling a method the class does not define,
`NotImplementedError` from `Folder.getIamPolicy`, and an opaque error raised by
the external client (tagged by an arbitrary code). -/
inductive PyErr where
  | keyError (key : String) (data : Data)
  | typeError
  | valueError (s : String)
  | attributeError (name : String)
  | notImplemented
  | clientError (code : Nat)
deriving DecidableEq, Repr

deriving instance DecidableEq for Except

/-- `Resource.__getitem__`: `self._data[key]`, re-raising `KeyError` with a
message that includes the key and the raw record. -/
def getItem (d : Data) (k : String) : Except PyErr String :=
  match lookupData d k with
  | some v => Except.ok v
  | none => Except.error (PyErr.keyError k d)

/-- The ten resource kinds registered in `FACTORIES`, named by registry key
(`'instance'` rendered as `vminstance`, `'object'` as `object`). -/
inductive ResType where
  | organization
  | folder
  | project
  | bucket
  | object
  | dataset
  | appengineapp
  | vminstance
  | firewall
  | cloudsqlinstance
deriving DecidableEq, Repr

/-- The nine `ResourceIterator` subclasses. -/
inductive IterKind where
  | folderIter
  | projectIter
  | bucketIter
  | objectIter
  | dataSetIter
  | appEngineAppIter
  | instanceIter
  | firewallIter
  | cloudSqlIter
deriving DecidableEq, Repr

/-- The `'contains'` list of each `FACTORIES` entry: the registered
child-iterator kinds of each resource kind.  In the source, `'project'` lists
only `CloudSqlIterator` (the other iterators are commented out). -/
def containsOf : ResType → List IterKind
  | ResType.organization => [IterKind.projectIter, IterKind.folderIter]
  | ResType.project => [IterKind.cloudSqlIter]
  | _ => []

/-- A constructed resource instance: its kind, its raw record (`self._data`),
its leaf flag (`self._leaf`, fixed in `Resource.__init__` as
`len(contains) == 0`), and its instance list of child-iterator kinds
(`self._contains`). -/
structure Res where
  rtype : ResType
  data : Data
  leaf : Bool
  contains : List IterKind
deriving DecidableEq, Repr

/-- `Resource.__init__(self, data, contains=None, **kwargs)`: the line
`self._leaf = len(contains) == 0` runs before the `None` default is normalized,
so `contains=None` (the default) raises `TypeError` from `len(None)`; an
explicit list always succeeds. -/
def Resource.init (rt : ResType) (d : Data) (contains : Option (List IterKind)) :
    Except PyErr Res :=
  match contains with
  | none => Except.error PyErr.typeError
  | some l => Except.ok (Res.mk rt d (l.length == 0) l)

/-- `ResourceFactory.create_new(data)`: `cls(data, **attrs)` with the factory's
registered `'contains'` list.  It never inspects the record's fields. -/
def createNew (rt : ResType) (d : Data) : Res :=
  Res.mk rt d ((containsOf rt).length == 0) (containsOf rt)

/-- `ResourceFactory.create_new` expressed through `Resource.init`: the factory
always passes an explicit `contains` list, so construction always succeeds. -/
def createNewE (rt : ResType) (d : Data) : Except PyErr Res :=
  Resource.init rt d (some (containsOf rt))

theorem createNewE_eq (rt : ResType) (d : Data) :
    createNewE rt d = Except.ok (createNew rt d) := rfl

/-- `Resource.is_leaf`. -/
def Res.is_leaf (r : Res) : Bool := r.leaf

/-- The primary-identifier field read by each kind's `key()` method:
`Organization.key` and `CloudSqlInstance.key` read `'name'`, `Project.key`
reads `'projectId'`, `DataSet.key` reads `'datasetId'`, every other kind uses
the base `Resource.key`, which reads `'id'`. -/
def keyField : ResType → String
  | ResType.organization => "name"
  | ResType.project => "projectId"
  | ResType.dataset => "datasetId"
  | ResType.cloudsqlinstance => "name"
  | _ => "id"

/-- `key()`: `self[field]` for the kind's field, through `__getitem__`. -/
def Res.key (r : Res) : Except PyErr String :=
  getItem r.data (keyField r.rtype)

/-- `enumerable()`: only `Project` defines it, as
`self['lifecycleState'] not in ['DELETE_REQUESTED']`; on every other kind the
method does not exist, so calling it raises `AttributeError`. -/
def Res.enumerable (r : Res) : Except PyErr Bool :=
  match r.rtype with
  | ResType.project =>
      match getItem r.data "lifecycleState" with
      | Except.ok s => Except.ok (!(["DELETE_REQUESTED"].contains s))
      | Except.error e => Except.error e
  | _ => Except.error (PyErr.attributeError "enumerable")

/-- Python `int(s)` on the strings appearing in these records: parses an
integer or raises `ValueError`. -/
def pyInt (s : String) : Except PyErr Int :=
  match s.toInt? with
  | some n => Except.ok n
  | none => Except.error (PyErr.valueError s)

/-- A lazy listing produced by one external client call: the records it yields,
followed (optionally) by an exception it raises after those yields.  A call
that raises before any yield is `⟨[], some e⟩`. -/
structure ListOut where
  items : List Data
  err : Option PyErr
deriving DecidableEq, Repr

/-- The external client consumed by iterators and policy accessors (an external
collaborator; each field is one client operation used in the source). -/
structure Client where
  iter_folders : String → ListOut
  iter_projects : String → ListOut
  iter_buckets : Int → ListOut
  iter_objects : String → ListOut
  iter_datasets : Int → ListOut
  iter_appengineapps : Int → ListOut
  iter_computeinstances : String → ListOut
  iter_computefirewalls : String → ListOut
  iter_cloudsqlinstances : String → ListOut
  get_organization_iam_policy : String → Except PyErr (Option String)
  get_project_iam_policy : String → Except PyErr (Option String)
  get_bucket_iam_policy : String → Except PyErr (Option String)
  get_bucket_gcs_policy : String → Except PyErr (Option String)
  get_object_iam_policy : String → Except PyErr (Option String)
  get_object_gcs_policy : String → Except PyErr (Option String)
  get_dataset_dataset_policy : String → String → Except PyErr (Option String)

/-- A client whose listings are all empty and whose policy fetches all return
`None`; scenario clients below override individual operations. -/
def Client.trivialC : Client :=
  Client.mk
    (fun _ => ListOut.mk [] none) (fun _ => ListOut.mk [] none)
    (fun _ => ListOut.mk [] none) (fun _ => ListOut.mk [] none)
    (fun _ => ListOut.mk [] none) (fun _ => ListOut.mk [] none)
    (fun _ => ListOut.mk [] none) (fun _ => ListOut.mk [] none)
    (fun _ => ListOut.mk [] none)
    (fun _ => Except.ok none) (fun _ => Except.ok none)
    (fun _ => Except.ok none) (fun _ => Except.ok none)
    (fun _ => Except.ok none) (fun _ => Except.ok none)
    (fun _ _ => Except.ok none)

/-- The resource kind each iterator constructs its yields as, via
`FACTORIES[kind].create_new`. -/
def createKind : IterKind → ResType
  | IterKind.folderIter => ResType.folder
  | IterKind.projectIter => ResType.project
  | IterKind.bucketIter => ResType.bucket
  | IterKind.objectIter => ResType.object
  | IterKind.dataSetIter => ResType.dataset
  | IterKind.appEngineAppIter => ResType.appengineapp
  | IterKind.instanceIter => ResType.vminstance
  | IterKind.firewallIter => ResType.firewall
  | IterKind.cloudSqlIter => ResType.cloudsqlinstance

/-- Result of consuming one iterator's `iter()` generator from `accept`: the
children successfully yielded (in yield order), then the exception raised after
them, if any.  A parameter-extraction or guard failure raises before any yield. -/
structure IterOut where
  yields : List Res
  err : Option PyErr
deriving DecidableEq, Repr

/-- One `ResourceIterator.iter()` generator, consumed to exhaustion or first
exception.  Guarded iterators (`Bucket`, `DataSet`, `AppEngineApp`, `Instance`,
`Firewall`, `CloudSql`) first evaluate `self.resource.enumerable()` and yield
nothing when it is false; each then extracts its listing parameter (`key()`,
`['projectId']`, `int(['projectNumber'])` or `['id']` per the source) and wraps
every record the client listing yields through the registry's `create_new`. -/
def iterRun (ik : IterKind) (r : Res) (c : Client) : IterOut :=
  match ik with
  | IterKind.folderIter =>
      match r.key with
      | Except.error e => IterOut.mk [] (some e)
      | Except.ok k =>
          let out := c.iter_folders k
          IterOut.mk (out.items.map (createNew ResType.folder)) out.err
  | IterKind.projectIter =>
      match r.key with
      | Except.error e => IterOut.mk [] (some e)
      | Except.ok k =>
          let out := c.iter_projects k
          IterOut.mk (out.items.map (createNew ResType.project)) out.err
  | IterKind.bucketIter =>
      match r.enumerable with
      | Except.error e => IterOut.mk [] (some e)
      | Except.ok false => IterOut.mk [] none
      | Except.ok true =>
          match getItem r.data "projectNumber" with
          | Except.error e => IterOut.mk [] (some e)
          | Except.ok pn =>
              match pyInt pn with
              | Except.error e => IterOut.mk [] (some e)
              | Except.ok n =>
                  let out := c.iter_buckets n
                  IterOut.mk (out.items.map (createNew ResType.bucket)) out.err
  | IterKind.objectIter =>
      match getItem r.data "id" with
      | Except.error e => IterOut.mk [] (some e)
      | Except.ok bid =>
          let out := c.iter_objects bid
          IterOut.mk (out.items.map (createNew ResType.object)) out.err
  | IterKind.dataSetIter =>
      match r.enumerable with
      | Except.error e => IterOut.mk [] (some e)
      | Except.ok false => IterOut.mk [] none
      | Except.ok true =>
          match getItem r.data "projectNumber" with
          | Except.error e => IterOut.mk [] (some e)
          | Except.ok pn =>
              match pyInt pn with
              | Except.error e => IterOut.mk [] (some e)
              | Except.ok n =>
                  let out := c.iter_datasets n
                  IterOut.mk (out.items.map (createNew ResType.dataset)) out.err
  | IterKind.appEngineAppIter =>
      match r.enumerable with
      | Except.error e => IterOut.mk [] (some e)
      | Except.ok false => IterOut.mk [] none
      | Except.ok true =>
          match getItem r.data "projectNumber" with
          | Except.error e => IterOut.mk [] (some e)
          | Except.ok pn =>
              match pyInt pn with
              | Except.error e => IterOut.mk [] (some e)
              | Except.ok n =>
                  let out := c.iter_appengineapps n
                  IterOut.mk (out.items.map (createNew ResType.appengineapp)) out.err
  | IterKind.instanceIter =>
      match r.enumerable with
      | Except.error e => IterOut.mk [] (some e)
      | Except.ok false => IterOut.mk [] none
      | Except.ok true =>
          match getItem r.data "projectId" with
          | Except.error e => IterOut.mk [] (some e)
          | Except.ok pid =>
              let out := c.iter_computeinstances pid
              IterOut.mk (out.items.map (createNew ResType.vminstance)) out.err
  | IterKind.firewallIter =>
      match r.enumerable with
      | Except.error e => IterOut.mk [] (some e)
      | Except.ok false => IterOut.mk [] none
      | Except.ok true =>
          match getItem r.data "projectId" with
          | Except.error e => IterOut.mk [] (some e)
          | Except.ok pid =>
              let out := c.iter_computefirewalls pid
              IterOut.mk (out.items.map (createNew ResType.firewall)) out.err
  | IterKind.cloudSqlIter =>
      match r.enumerable with
      | Except.error e => IterOut.mk [] (some e)
      | Except.ok false => IterOut.mk [] none
      | Except.ok true =>
          match getItem r.data "projectId" with
          | Except.error e => IterOut.mk [] (some e)
          | Except.ok pid =>
              let out := c.iter_cloudsqlinstances pid
              IterOut.mk (out.items.map (createNew ResType.cloudsqlinstance)) out.err

/-- Observable events of one traversal run: `visit r stack` records
`visitor.visit(self)` on a resource whose `_stack` was just set to `stack`;
`inlineRecurse ch ns` records the engine recursing into a leaf child inline
(`call_accept()` in the current execution context); `dispatchSubmit ch ns`
records `visitor.dispatch(call_accept)` being handed the task for a non-leaf
child. -/
inductive Event where
  | visit (r : Res) (stack : List Res)
  | inlineRecurse (r : Res) (stack : List Res)
  | dispatchSubmit (r : Res) (stack : List Res)
deriving DecidableEq, Repr

/-- The resource an event concerns. -/
def Event.res : Event → Res
  | Event.visit r _ => r
  | Event.inlineRecurse r _ => r
  | Event.dispatchSubmit r _ => r

/-- The inner loop of `Resource.accept` over the children one iterator yields:
leaf children are recursed into inline (an exception from the inline subtree
propagates and aborts the enumeration, there being no try/except in `accept`);
non-leaf children are handed to `visitor.dispatch`.  `go` is the recursive
traversal applied to a child and its new ancestor stack.  This is the
synchronous-dispatch instantiation of the engine: the dispatcher runs each
submitted task immediately and isolates any exception the task raises. -/
def foldChildren (go : Res → List Res → List Event × Option PyErr)
    (r : Res) (stack : List Res) : List Res → List Event × Option PyErr
  | [] => ([], none)
  | ch :: rest =>
      let ns := stack ++ [r]
      if ch.is_leaf then
        match go ch ns with
        | (t, some e) => (Event.inlineRecurse ch ns :: t, some e)
        | (t, none) =>
            let pr := foldChildren go r stack rest
            (Event.inlineRecurse ch ns :: t ++ pr.1, pr.2)
      else
        let sub := go ch ns
        let pr := foldChildren go r stack rest
        (Event.dispatchSubmit ch ns :: sub.1 ++ pr.1, pr.2)

/-- The outer loop of `Resource.accept` over `self._contains`: instantiate each
iterator in declared order, consume its yields through `foldChildren`, and let
any exception (from an inline subtree or from the iterator itself) propagate,
skipping the remaining iterators. -/
def foldIters (go : Res → List Res → List Event × Option PyErr)
    (c : Client) (r : Res) (stack : List Res) : List IterKind → List Event × Option PyErr
  | [] => ([], none)
  | ik :: rest =>
      let out := iterRun ik r c
      match foldChildren go r stack out.yields with
      | (t1, some e) => (t1, some e)
      | (t1, none) =>
          match out.err with
          | some e => (t1, some e)
          | none =>
              let pr := foldIters go c r stack rest
              (t1 ++ pr.1, pr.2)

/-- `Resource.accept(self, visitor, stack)` under a synchronous dispatcher:
set `self._stack = stack`, call `visitor.visit(self)`, then enumerate the
children of each registered iterator.  The returned trace is the sequence of
engine events, the second component the exception propagating out of this
`accept` call, if any.  `fuel` bounds recursion depth; every registry-created
resource hierarchy is handled exactly by any `fuel` larger than its depth. -/
def acceptI : Nat → Res → Client → List Res → List Event × Option PyErr
  | 0, _, _, _ => ([], none)
  | fuel + 1, r, c, stack =>
      let pr := foldIters (fun ch ns => acceptI fuel ch c ns) c r stack r.contains
      (Event.visit r stack :: pr.1, pr.2)

/-- The `cached(field_name)` decorator of the source: `wrapper` returns the
instance attribute when it is already set (`hasattr`), and otherwise evaluates
the wrapped fetch, stores the result with `setattr` only on success (an
exception propagates before the `setattr` line), and returns it.  The cache
slot distinguishes "unset" from "cached `None`", exactly as `hasattr` does.
Inputs: the outcome the wrapped fetch would produce if evaluated, and the
current cache slot; outputs: the call's result, the new cache slot, and how
many times the wrapped fetch was evaluated during the call. -/
def cachedCall (fetch : Except PyErr (Option String))
    (cache : Option (Option String)) :
    Except PyErr (Option String) × Option (Option String) × Nat :=
  match cache with
  | some v => (Except.ok v, some v, 0)
  | none =>
      match fetch with
      | Except.ok v => (Except.ok v, some v, 1)
      | Except.error e => (Except.error e, none, 1)

/-- The three policy capabilities of the entity layer: `getIamPolicy`,
`getGCSPolicy` and `getDatasetPolicy`. -/
inductive AccKind where
  | iam
  | gcs
  | dataset
deriving DecidableEq, Repr

/-- The underlying (uncached) client fetch each `@cached` accessor wraps:
`Organization/Project/Bucket/GcsObject.getIamPolicy` call
`client.get_*_iam_policy(self.key())`; `Bucket/GcsObject.getGCSPolicy` call
`client.get_*_gcs_policy(self.key())`; `DataSet.getDatasetPolicy` calls
`client.get_dataset_dataset_policy(self.parent().key(), self.key())`, where
`parent()` is the last element of the attached ancestor stack (calling `.key()`
on the `None` parent of a root dataset raises `AttributeError`).  Kinds without
a cached accessor for the capability fall outside this function's use. -/
def fetchOf (k : AccKind) (c : Client) (r : Res) (stack : List Res) :
    Except PyErr (Option String) :=
  match k, r.rtype with
  | AccKind.iam, ResType.organization => r.key.bind c.get_organization_iam_policy
  | AccKind.iam, ResType.project => r.key.bind c.get_project_iam_policy
  | AccKind.iam, ResType.bucket => r.key.bind c.get_bucket_iam_policy
  | AccKind.iam, ResType.object => r.key.bind c.get_object_iam_policy
  | AccKind.gcs, ResType.bucket => r.key.bind c.get_bucket_gcs_policy
  | AccKind.gcs, ResType.object => r.key.bind c.get_object_gcs_policy
  | AccKind.dataset, ResType.dataset =>
      match stack.getLast? with
      | none => Except.error (PyErr.attributeError "key")
      | some p =>
          match p.key with
          | Except.error e => Except.error e
          | Except.ok pk =>
              match r.key with
              | Except.error e => Except.error e
              | Except.ok sk => c.get_dataset_dataset_policy pk sk
  | _, _ => Except.ok none

/-- Which (capability, kind) pairs carry a `@cached` accessor in the source. -/
def supportsCached (k : AccKind) (rt : ResType) : Bool :=
  match k, rt with
  | AccKind.iam, ResType.organization => true
  | AccKind.iam, ResType.project => true
  | AccKind.iam, ResType.bucket => true
  | AccKind.iam, ResType.object => true
  | AccKind.gcs, ResType.bucket => true
  | AccKind.gcs, ResType.object => true
  | AccKind.dataset, ResType.dataset => true
  | _, _ => false

/-- One call of a policy accessor, dispatched across the class hierarchy as the
source does: kinds with a `@cached` accessor run the decorator around their
client fetch; `Folder.getIamPolicy` raises `NotImplementedError`; every other
(kind, capability) pair inherits the base `Resource` accessor, which returns
`None` and touches neither the cache nor the client.  Output as in
`cachedCall`: result, new cache slot for this accessor's field, number of
client fetch evaluations. -/
def runAccessor (k : AccKind) (c : Client) (r : Res) (stack : List Res)
    (cache : Option (Option String)) :
    Except PyErr (Option String) × Option (Option String) × Nat :=
  match k, r.rtype with
  | AccKind.iam, ResType.organization => cachedCall (fetchOf k c r stack) cache
  | AccKind.iam, ResType.project => cachedCall (fetchOf k c r stack) cache
  | AccKind.iam, ResType.bucket => cachedCall (fetchOf k c r stack) cache
  | AccKind.iam, ResType.object => cachedCall (fetchOf k c r stack) cache
  | AccKind.iam, ResType.folder => (Except.error PyErr.notImplemented, cache, 0)
  | AccKind.gcs, ResType.bucket => cachedCall (fetchOf k c r stack) cache
  | AccKind.gcs, ResType.object => cachedCall (fetchOf k c r stack) cache
  | AccKind.dataset, ResType.dataset => cachedCall (fetchOf k c r stack) cache
  | _, _ => (Except.ok none, cache, 0)

/-- A unit of work sitting in a deferring dispatcher's queue, resolved to what
it will actually do when finally executed: call `accept` on a resource with an
ancestor-stack argument.  In the source, the submitted closure `call_accept`
reads the *frame variables* `resource`, `stack` and `self` of the enclosing
`accept` call at execution time; `stack` and `self` are never rebound in that
frame, but `resource` is rebound by every iteration of the enumeration loops,
so a task executed after its frame's loops have finished observes the frame's
final binding of `resource`. -/
abbrev DTask := Res × List Res

/-- Queue contribution and trace of running the enumeration loops of one
`accept` frame under a dispatcher that only queues tasks (running them after
the whole call stack has unwound): the sequence of visits performed
synchronously (this frame and inline leaf recursion), the queued tasks already
resolved to their frame-final targets, and the exception propagating out of
the frame, if any. -/
structure FrameOut where
  trace : List Event
  tasks : List DTask
  err : Option PyErr
deriving DecidableEq, Repr

/-- The inner enumeration loop of one frame under a deferring dispatcher.
State threaded through the loop: the current binding of the frame variable
`resource` (`var`), and how many tasks this frame has submitted so far
(`cnt`) — each such task will read `var`'s final value.  Leaf children are
still recursed inline (each inline call owns a fresh frame, handled by `go`);
an exception from an inline subtree aborts the loop, leaving already queued
tasks queued. -/
def frameChildren (go : Res → List Res → FrameOut) (r : Res) (stack : List Res) :
    List Res → Option Res → Nat →
    List Event × List DTask × Option Res × Nat × Option PyErr
  | [], var, cnt => ([], [], var, cnt, none)
  | ch :: rest, _, cnt =>
      let ns := stack ++ [r]
      if ch.is_leaf then
        let sub := go ch ns
        match sub.err with
        | some e => (sub.trace, sub.tasks, some ch, cnt, some e)
        | none =>
            let pr := frameChildren go r stack rest (some ch) cnt
            (sub.trace ++ pr.1, sub.tasks ++ pr.2.1, pr.2.2.1, pr.2.2.2.1, pr.2.2.2.2)
      else
        frameChildren go r stack rest (some ch) (cnt + 1)

/-- The outer loop of one frame over `self._contains` under a deferring
dispatcher, threading the same frame state across iterators (an empty
iterator leaves the frame variable `resource` bound to its previous value). -/
def frameIters (go : Res → List Res → FrameOut) (c : Client) (r : Res)
    (stack : List Res) :
    List IterKind → Option Res → Nat →
    List Event × List DTask × Option Res × Nat × Option PyErr
  | [], var, cnt => ([], [], var, cnt, none)
  | ik :: rest, var, cnt =>
      let out := iterRun ik r c
      let pr := frameChildren go r stack out.yields var cnt
      match pr.2.2.2.2 with
      | some e => (pr.1, pr.2.1, pr.2.2.1, pr.2.2.2.1, some e)
      | none =>
          match out.err with
          | some e => (pr.1, pr.2.1, pr.2.2.1, pr.2.2.2.1, some e)
          | none =>
              let nx := frameIters go c r stack rest pr.2.2.1 pr.2.2.2.1
              (pr.1 ++ nx.1, pr.2.1 ++ nx.2.1, nx.2.2.1, nx.2.2.2.1, nx.2.2.2.2)

/-- `Resource.accept` under a dispatcher that defers every submitted task until
after the submitting call stack has unwound (one execution strategy the engine
explicitly permits).  Because every task of this frame reads the frame variable
`resource` at execution time, the queue records each of this frame's `cnt`
tasks with the frame's final binding of `resource` as the target. -/
def enumPhase : Nat → Res → Client → List Res → FrameOut
  | 0, _, _, _ => FrameOut.mk [] [] none
  | fuel + 1, r, c, stack =>
      let pr := frameIters (fun ch ns => enumPhase fuel ch c ns) c r stack
        r.contains none 0
      let own : List DTask :=
        match pr.2.2.1 with
        | some v => List.replicate pr.2.2.2.1 (v, stack ++ [r])
        | none => []
      FrameOut.mk (Event.visit r stack :: pr.1) (pr.2.1 ++ own) pr.2.2.2.2

/-- The deferring dispatcher's drain loop: execute queued tasks one after the
other once the original call stack has unwound, appending tasks each execution
queues in turn. -/
def runQueue : Nat → Client → List DTask → List Event
  | 0, _, _ => []
  | _, _, [] => []
  | fuel + 1, c, (t, st) :: rest =>
      let out := enumPhase (fuel + 1) t c st
      out.trace ++ runQueue fuel c (rest ++ out.tasks)

/-- A whole crawl under the deferring dispatcher: run the root's `accept`, then
drain the task queue. -/
def deferredRun (fuel : Nat) (r : Res) (c : Client) : List Event :=
  let out := enumPhase fuel r c []
  out.trace ++ runQueue fuel c out.tasks

/-- A registry-consistent resource: its instance `contains` list and leaf flag
are the ones `create_new` installs for its kind.  Every resource an iterator
yields has this shape; the root is constructed through the registry too. -/
def Res.wf (r : Res) : Prop :=
  r.contains = containsOf r.rtype ∧ r.leaf = ((containsOf r.rtype).length == 0)

theorem createNew_wf (rt : ResType) (d : Data) : (createNew rt d).wf :=
  ⟨rfl, rfl⟩

/-- Depth measure on the registry's containment graph: every child kind an
iterator of `rt` constructs sits strictly below `rt`. -/
def rank : ResType → Nat
  | ResType.organization => 2
  | ResType.project => 1
  | _ => 0

theorem rank_createKind_lt (rt : ResType) (ik : IterKind)
    (h : ik ∈ containsOf rt) : rank (createKind ik) < rank rt := by
  cases rt <;> simp [containsOf] at h
  · rcases h with rfl | rfl <;> simp [createKind, rank]
  · subst h
    simp [createKind, rank]

theorem iterRun_yields_shape (ik : IterKind) (r : Res) (c : Client) :
    ∃ ds : List Data, (iterRun ik r c).yields = ds.map (createNew (createKind ik)) := by
  cases ik <;> simp only [iterRun, createKind] <;> (repeat' split) <;>
    first
      | exact ⟨[], rfl⟩
      | exact ⟨_, rfl⟩

theorem iterRun_mem_wf {ik : IterKind} {r : Res} {c : Client} {ch : Res}
    (h : ch ∈ (iterRun ik r c).yields) : ch.wf ∧ ch.rtype = createKind ik := by
  obtain ⟨ds, hds⟩ := iterRun_yields_shape ik r c
  rw [hds] at h
  obtain ⟨d, _, rfl⟩ := List.mem_map.1 h
  exact ⟨createNew_wf _ _, rfl⟩

theorem foldChildren_rank (go : Res → List Res → List Event × Option PyErr)
    (r : Res) (stack : List Res) (ys : List Res)
    (hgo : ∀ ch ∈ ys, ∀ ns, ∀ ev ∈ (go ch ns).1, rank ev.res.rtype ≤ rank ch.rtype)
    (hys : ∀ ch ∈ ys, rank ch.rtype < rank r.rtype) :
    ∀ ev ∈ (foldChildren go r stack ys).1, rank ev.res.rtype < rank r.rtype := by
  induction ys with
  | nil => intro ev hev; simp [foldChildren] at hev
  | cons ch rest ih =>
      intro ev hev
      have hch := hys ch (List.mem_cons_self _ _)
      have hgoch := hgo ch (List.mem_cons_self _ _)
      have ih' := ih
        (fun x hx ns ev' hev' => hgo x (List.mem_cons_of_mem _ hx) ns ev' hev')
        (fun x hx => hys x (List.mem_cons_of_mem _ hx))
      simp only [foldChildren] at hev
      by_cases hl : ch.is_leaf
      · rw [if_pos hl] at hev
        rcases hg : go ch (stack ++ [r]) with ⟨t, e⟩
        rw [hg] at hev
        cases e with
        | some e0 =>
            rcases List.mem_cons.1 hev with rfl | hev'
            · simpa [Event.res] using hch
            · have : ev ∈ (go ch (stack ++ [r])).1 := by rw [hg]; exact hev'
              exact lt_of_le_of_lt (hgoch _ ev this) hch
        | none =>
            rcases List.mem_cons.1 hev with rfl | hev'
            · simpa [Event.res] using hch
            · rcases List.mem_append.1 hev' with h1 | h2
              · have : ev ∈ (go ch (stack ++ [r])).1 := by rw [hg]; exact h1
                exact lt_of_le_of_lt (hgoch _ ev this) hch
              · exact ih' ev h2
      · rw [if_neg hl] at hev
        rcases List.mem_cons.1 hev with rfl | hev'
        · simpa [Event.res] using hch
        · rcases List.mem_append.1 hev' with h1 | h2
          · exact lt_of_le_of_lt (hgoch _ ev h1) hch
          · exact ih' ev h2

theorem foldIters_rank (go : Res → List Res → List Event × Option PyErr)
    (c : Client) (r : Res) (stack : List Res) (iks : List IterKind)
    (hgo : ∀ ch, ch.wf → ∀ ns, ∀ ev ∈ (go ch ns).1, rank ev.res.rtype ≤ rank ch.rtype)
    (hsub : ∀ ik ∈ iks, ik ∈ containsOf r.rtype) :
    ∀ ev ∈ (foldIters go c r stack iks).1, rank ev.res.rtype < rank r.rtype := by
  induction iks with
  | nil => intro ev hev; simp [foldIters] at hev
  | cons ik rest ih =>
      intro ev hev
      have hFC : ∀ ev ∈ (foldChildren go r stack (iterRun ik r c).yields).1,
          rank ev.res.rtype < rank r.rtype := by
        apply foldChildren_rank
        · intro ch hch ns ev' hev'
          exact hgo ch (iterRun_mem_wf hch).1 ns ev' hev'
        · intro ch hch
          rcases iterRun_mem_wf hch with ⟨_, hrt⟩
          rw [hrt]
          exact rank_createKind_lt _ _ (hsub ik (List.mem_cons_self _ _))
      simp only [foldIters] at hev
      rcases hfc : foldChildren go r stack (iterRun ik r c).yields with ⟨t1, e1⟩
      rw [hfc] at hev
      have ht1 : ∀ ev ∈ t1, rank ev.res.rtype < rank r.rtype := by
        intro ev' hev'
        apply hFC
        rw [hfc]
        exact hev'
      cases e1 with
      | some e0 => exact ht1 ev hev
      | none =>
          rcases he : (iterRun ik r c).err with _ | e0
          · rw [he] at hev
            rcases List.mem_append.1 hev with h1 | h2
            · exact ht1 ev h1
            · exact ih (fun x hx => hsub x (List.mem_cons_of_mem _ hx)) ev h2
          · rw [he] at hev
            exact ht1 ev hev

theorem acceptI_rank : ∀ (fuel : Nat) (r : Res) (c : Client) (stack : List Res),
    r.wf → ∀ ev ∈ (acceptI fuel r c stack).1, rank ev.res.rtype ≤ rank r.rtype := by
  intro fuel
  induction fuel with
  | zero => intro r c stack _ ev hev; simp [acceptI] at hev
  | succ n ih =>
      intro r c stack hwf ev hev
      simp only [acceptI] at hev
      rcases List.mem_cons.1 hev with rfl | h
      · simp [Event.res]
      · refine le_of_lt (foldIters_rank _ c r stack r.contains ?_ ?_ ev h)
        · intro ch hch ns ev' hev'
          exact ih ch c ns hch ev' hev'
        · intro ik hik
          rw [hwf.1] at hik
          exact hik

theorem acceptI_tail_rank (n : Nat) (r : Res) (c : Client) (stack : List Res)
    (hwf : r.wf) :
    ∀ ev ∈ (acceptI (n + 1) r c stack).1.tail, rank ev.res.rtype < rank r.rtype := by
  intro ev hev
  have hT : (acceptI (n + 1) r c stack).1.tail
      = (foldIters (fun ch ns => acceptI n ch c ns) c r stack r.contains).1 := rfl
  rw [hT] at hev
  exact foldIters_rank _ c r stack r.contains
    (fun ch hch ns ev' hev' => acceptI_rank n ch c ns hch ev' hev')
    (by rw [hwf.1]; exact fun ik h => h) ev hev

/-- Whether an event is a `visitor.visit` call on resource `r`. -/
def isVisitOf (r : Res) : Event → Bool
  | Event.visit r' _ => decide (r' = r)
  | _ => false

/-- C2: for every resource on which `accept` is invoked, `visitor.visit` is
called on that resource exactly once in the resulting traversal, as the very
first event — with the ancestor chain `stack` already attached — strictly
before any child iterator produces work and before any child is visited
(pre-order). -/
theorem crawl_visit_once_preorder (fuel : Nat) (r : Res) (c : Client)
    (stack : List Res) (hwf : r.wf) :
    ((acceptI (fuel + 1) r c stack).1.head? = some (Event.visit r stack)) ∧
    ((acceptI (fuel + 1) r c stack).1.countP (isVisitOf r) = 1) ∧
    (∀ ev ∈ (acceptI (fuel + 1) r c stack).1.tail, isVisitOf r ev = false) := by
  have htail : ∀ ev ∈ (acceptI (fuel + 1) r c stack).1.tail, isVisitOf r ev = false := by
    intro ev hev
    have hr := acceptI_tail_rank fuel r c stack hwf ev hev
    cases ev with
    | visit r' st' =>
        simp only [isVisitOf]
        apply decide_eq_false
        intro hrr
        subst hrr
        simp only [Event.res] at hr
        exact lt_irrefl _ hr
    | inlineRecurse r' st' => rfl
    | dispatchSubmit r' st' => rfl
  have hcons : (acceptI (fuel + 1) r c stack).1
      = Event.visit r stack :: (acceptI (fuel + 1) r c stack).1.tail := rfl
  refine ⟨by rw [hcons]; rfl, ?_, htail⟩
  rw [hcons, List.countP_cons]
  have h0 : List.countP (isVisitOf r) (acceptI (fuel + 1) r c stack).1.tail = 0 := by
    rw [List.countP_eq_zero]
    intro ev hev
    rw [htail ev hev]
    exact Bool.false_ne_true
  rw [h0]
  simp [isVisitOf]

/-- Witness for C2 at a concrete organization resource. -/
theorem crawl_visit_once_preorder_witness :
    ((acceptI 1 (createNew ResType.organization [("name", "o")]) Client.trivialC []).1.head?
        = some (Event.visit (createNew ResType.organization [("name", "o")]) [])) ∧
    ((acceptI 1 (createNew ResType.organization [("name", "o")]) Client.trivialC []).1.countP
        (isVisitOf (createNew ResType.organization [("name", "o")])) = 1) ∧
    (∀ ev ∈ (acceptI 1 (createNew ResType.organization [("name", "o")]) Client.trivialC []).1.tail,
        isVisitOf (createNew ResType.organization [("name", "o")]) ev = false) :=
  crawl_visit_once_preorder 0 (createNew ResType.organization [("name", "o")])
    Client.trivialC [] (createNew_wf _ _)

/-- Soundness invariant of the inline-vs-dispatch decision: an
`inlineRecurse` marker only ever targets a leaf, a `dispatchSubmit` marker only
ever targets a non-leaf, and either target is a registry-created resource. -/
def markerOk : Event → Prop
  | Event.visit _ _ => True
  | Event.inlineRecurse x _ => x.is_leaf = true ∧ x.wf
  | Event.dispatchSubmit x _ => x.is_leaf = false ∧ x.wf

theorem foldChildren_markerOk (go : Res → List Res → List Event × Option PyErr)
    (r : Res) (stack : List Res) (ys : List Res)
    (hgo : ∀ ch ∈ ys, ∀ ns, ∀ ev ∈ (go ch ns).1, markerOk ev)
    (hys : ∀ ch ∈ ys, ch.wf) :
    ∀ ev ∈ (foldChildren go r stack ys).1, markerOk ev := by
  induction ys with
  | nil => intro ev hev; simp [foldChildren] at hev
  | cons ch rest ih =>
      intro ev hev
      have hgoch := hgo ch (List.mem_cons_self _ _)
      have ih' := ih
        (fun x hx ns ev' hev' => hgo x (List.mem_cons_of_mem _ hx) ns ev' hev')
        (fun x hx => hys x (List.mem_cons_of_mem _ hx))
      simp only [foldChildren] at hev
      by_cases hl : ch.is_leaf
      · rw [if_pos hl] at hev
        rcases hg : go ch (stack ++ [r]) with ⟨t, e⟩
        rw [hg] at hev
        cases e with
        | some e0 =>
            rcases List.mem_cons.1 hev with rfl | hev'
            · exact ⟨hl, hys ch (List.mem_cons_self _ _)⟩
            · exact hgoch _ ev (by rw [hg]; exact hev')
        | none =>
            rcases List.mem_cons.1 hev with rfl | hev'
            · exact ⟨hl, hys ch (List.mem_cons_self _ _)⟩
            · rcases List.mem_append.1 hev' with h1 | h2
              · exact hgoch _ ev (by rw [hg]; exact h1)
              · exact ih' ev h2
      · rw [if_neg hl] at hev
        rcases List.mem_cons.1 hev with rfl | hev'
        · exact ⟨Bool.not_eq_true _ ▸ (by simpa using hl), hys ch (List.mem_cons_self _ _)⟩
        · rcases List.mem_append.1 hev' with h1 | h2
          · exact hgoch _ ev h1
          · exact ih' ev h2

theorem foldIters_markerOk (go : Res → List Res → List Event × Option PyErr)
    (c : Client) (r : Res) (stack : List Res) (iks : List IterKind)
    (hgo : ∀ ch, ch.wf → ∀ ns, ∀ ev ∈ (go ch ns).1, markerOk ev) :
    ∀ ev ∈ (foldIters go c r stack iks).1, markerOk ev := by
  induction iks with
  | nil => intro ev hev; simp [foldIters] at hev
  | cons ik rest ih =>
      intro ev hev
      have hFC : ∀ ev ∈ (foldChildren go r stack (iterRun ik r c).yields).1, markerOk ev := by
        apply foldChildren_markerOk
        · intro ch hch ns ev' hev'
          exact hgo ch (iterRun_mem_wf hch).1 ns ev' hev'
        · intro ch hch
          exact (iterRun_mem_wf hch).1
      simp only [foldIters] at hev
      rcases hfc : foldChildren go r stack (iterRun ik r c).yields with ⟨t1, e1⟩
      rw [hfc] at hev
      have ht1 : ∀ ev ∈ t1, markerOk ev := by
        intro ev' hev'
        apply hFC
        rw [hfc]
        exact hev'
      cases e1 with
      | some e0 => exact ht1 ev hev
      | none =>
          rcases he : (iterRun ik r c).err with _ | e0
          · rw [he] at hev
            rcases List.mem_append.1 hev with h1 | h2
            · exact ht1 ev h1
            · exact ih ev h2
          · rw [he] at hev
            exact ht1 ev hev

theorem acceptI_markerOk : ∀ (fuel : Nat) (r : Res) (c : Client) (stack : List Res),
    ∀ ev ∈ (acceptI fuel r c stack).1, markerOk ev := by
  intro fuel
  induction fuel with
  | zero => intro r c stack ev hev; simp [acceptI] at hev
  | succ n ih =>
      intro r c stack ev hev
      simp only [acceptI] at hev
      rcases List.mem_cons.1 hev with rfl | h
      · trivial
      · exact foldIters_markerOk _ c r stack r.contains
          (fun ch hch ns ev' hev' => ih ch c ns ev' hev') ev h

theorem foldChildren_complete (go : Res → List Res → List Event × Option PyErr)
    (r : Res) (stack : List Res) (ys : List Res) (ch : Res) (h : ch ∈ ys)
    (he : (foldChildren go r stack ys).2 = none) :
    (ch.is_leaf = true →
        Event.inlineRecurse ch (stack ++ [r]) ∈ (foldChildren go r stack ys).1) ∧
    (ch.is_leaf = false →
        Event.dispatchSubmit ch (stack ++ [r]) ∈ (foldChildren go r stack ys).1) := by
  induction ys with
  | nil => simp at h
  | cons y rest ih =>
      simp only [foldChildren] at he ⊢
      by_cases hl : y.is_leaf
      · rw [if_pos hl] at he ⊢
        rcases hg : go y (stack ++ [r]) with ⟨t, e⟩
        rw [hg] at he
        cases e with
        | some e0 => exact Option.noConfusion he
        | none =>
            have he' : (foldChildren go r stack rest).2 = none := he
            rcases List.mem_cons.1 h with rfl | hrest
            · refine ⟨fun _ => List.mem_cons_self _ _, fun hf => ?_⟩
              rw [hl] at hf
              exact Bool.noConfusion hf
            · have hrec := ih hrest he'
              refine ⟨fun hlf => ?_, fun hlf => ?_⟩
              · exact List.mem_cons_of_mem _ (List.mem_append_right _ (hrec.1 hlf))
              · exact List.mem_cons_of_mem _ (List.mem_append_right _ (hrec.2 hlf))
      · rw [if_neg hl] at he ⊢
        have he' : (foldChildren go r stack rest).2 = none := he
        rcases List.mem_cons.1 h with rfl | hrest
        · exact ⟨fun hf => absurd hf hl, fun _ => List.mem_cons_self _ _⟩
        · have hrec := ih hrest he'
          refine ⟨fun hlf => ?_, fun hlf => ?_⟩
          · exact List.mem_cons_of_mem _ (List.mem_append_right _ (hrec.1 hlf))
          · exact List.mem_cons_of_mem _ (List.mem_append_right _ (hrec.2 hlf))

theorem foldIters_complete (go : Res → List Res → List Event × Option PyErr)
    (c : Client) (r : Res) (stack : List Res) (iks : List IterKind)
    (ik : IterKind) (ch : Res) (hik : ik ∈ iks)
    (hch : ch ∈ (iterRun ik r c).yields)
    (he : (foldIters go c r stack iks).2 = none) :
    (ch.is_leaf = true →
        Event.inlineRecurse ch (stack ++ [r]) ∈ (foldIters go c r stack iks).1) ∧
    (ch.is_leaf = false →
        Event.dispatchSubmit ch (stack ++ [r]) ∈ (foldIters go c r stack iks).1) := by
  induction iks with
  | nil => simp at hik
  | cons ik' rest ih =>
      simp only [foldIters] at he ⊢
      rcases hfc : foldChildren go r stack (iterRun ik' r c).yields with ⟨t1, e1⟩
      rw [hfc] at he
      cases e1 with
      | some e0 => exact Option.noConfusion he
      | none =>
          rcases herr : (iterRun ik' r c).err with _ | e0
          · rw [herr] at he
            have he' : (foldIters go c r stack rest).2 = none := he
            rcases List.mem_cons.1 hik with rfl | hikrest
            · have hc := foldChildren_complete go r stack (iterRun ik r c).yields ch hch
                (by rw [hfc])
              rw [hfc] at hc
              exact ⟨fun hlf => List.mem_append_left _ (hc.1 hlf),
                     fun hlf => List.mem_append_left _ (hc.2 hlf)⟩
            · have hrec := ih hikrest he'
              exact ⟨fun hlf => List.mem_append_right _ (hrec.1 hlf),
                     fun hlf => List.mem_append_right _ (hrec.2 hlf)⟩
          · rw [herr] at he
            exact Option.noConfusion he

/-- Raw record of the scenario's root organization. -/
def orgD : Data := [("name", "organizations/1")]

/-- Raw record of scenario project A (active). -/
def pAD : Data := [("projectId", "project-a"), ("lifecycleState", "ACTIVE")]

/-- Raw record of scenario project B (active). -/
def pBD : Data := [("projectId", "project-b"), ("lifecycleState", "ACTIVE")]

/-- The scenario's root organization resource, built through the registry. -/
def orgRoot : Res := createNew ResType.organization orgD

/-- Scenario project A, as `ProjectIterator` yields it. -/
def projA : Res := createNew ResType.project pAD

/-- Scenario project B, as `ProjectIterator` yields it. -/
def projB : Res := createNew ResType.project pBD

/-- Scenario client: the organization's project listing yields projects A and B
and finishes cleanly; every other listing is empty. -/
def clientAB : Client :=
  { Client.trivialC with iter_projects := fun _ => ListOut.mk [pAD, pBD] none }

/-- C4: during traversal, a yielded child with zero registered child-iterator
kinds (`is_leaf()` true) is recursed into inline and never handed to
`visitor.dispatch`, while a yielded child with at least one child-iterator kind
is handed to `visitor.dispatch` and never recursed into inline; the leaf flag
driving the decision is fixed at construction as "the `contains` list is
empty". -/
theorem crawl_leaf_dispatch_decision :
    (∀ rt d, (createNew rt d).is_leaf = ((containsOf rt).length == 0)) ∧
    (∀ fuel r c stack ch ns, Event.dispatchSubmit ch ns ∈ (acceptI fuel r c stack).1 →
        ch.is_leaf = false ∧ ch.leaf = ((containsOf ch.rtype).length == 0)) ∧
    (∀ fuel r c stack ch ns, Event.inlineRecurse ch ns ∈ (acceptI fuel r c stack).1 →
        ch.is_leaf = true ∧ ch.leaf = ((containsOf ch.rtype).length == 0)) ∧
    (∀ fuel r c stack ik ch, ik ∈ r.contains → ch ∈ (iterRun ik r c).yields →
        (acceptI (fuel + 1) r c stack).2 = none →
        ((ch.is_leaf = true →
            Event.inlineRecurse ch (stack ++ [r]) ∈ (acceptI (fuel + 1) r c stack).1 ∧
            ∀ ns, Event.dispatchSubmit ch ns ∉ (acceptI (fuel + 1) r c stack).1) ∧
         (ch.is_leaf = false →
            Event.dispatchSubmit ch (stack ++ [r]) ∈ (acceptI (fuel + 1) r c stack).1 ∧
            ∀ ns, Event.inlineRecurse ch ns ∉ (acceptI (fuel + 1) r c stack).1))) := by
  have hdisp : ∀ (fuel : Nat) (r : Res) (c : Client) (stack : List Res) (ch : Res)
      (ns : List Res), Event.dispatchSubmit ch ns ∈ (acceptI fuel r c stack).1 →
      ch.is_leaf = false ∧ ch.leaf = ((containsOf ch.rtype).length == 0) := by
    intro fuel r c stack ch ns hmem
    have hok : markerOk (Event.dispatchSubmit ch ns) := acceptI_markerOk fuel r c stack _ hmem
    exact ⟨hok.1, hok.2.2⟩
  have hinl : ∀ (fuel : Nat) (r : Res) (c : Client) (stack : List Res) (ch : Res)
      (ns : List Res), Event.inlineRecurse ch ns ∈ (acceptI fuel r c stack).1 →
      ch.is_leaf = true ∧ ch.leaf = ((containsOf ch.rtype).length == 0) := by
    intro fuel r c stack ch ns hmem
    have hok : markerOk (Event.inlineRecurse ch ns) := acceptI_markerOk fuel r c stack _ hmem
    exact ⟨hok.1, hok.2.2⟩
  refine ⟨fun rt d => rfl, hdisp, hinl, ?_⟩
  intro fuel r c stack ik ch hik hch he
  have he' : (foldIters (fun x ns => acceptI fuel x c ns) c r stack r.contains).2 = none := he
  have hcomp := foldIters_complete (fun x ns => acceptI fuel x c ns) c r stack
    r.contains ik ch hik hch he'
  constructor
  · intro hlf
    refine ⟨List.mem_cons_of_mem _ (hcomp.1 hlf), ?_⟩
    intro ns hmem
    have := (hdisp (fuel + 1) r c stack ch ns hmem).1
    rw [hlf] at this
    exact Bool.noConfusion this
  · intro hlf
    refine ⟨List.mem_cons_of_mem _ (hcomp.2 hlf), ?_⟩
    intro ns hmem
    have := (hinl (fuel + 1) r c stack ch ns hmem).1
    rw [hlf] at this
    exact Bool.noConfusion this

/-- Witness for C4: in the concrete organization scenario, non-leaf project A
is handed to `dispatch` during the traversal. -/
theorem crawl_leaf_dispatch_decision_witness :
    Event.dispatchSubmit projA ([] ++ [orgRoot]) ∈ (acceptI 5 orgRoot clientAB []).1 :=
  ((crawl_leaf_dispatch_decision.2.2.2 4 orgRoot clientAB [] IterKind.projectIter projA
    (by decide) (by decide) (by decide)).2 (by decide)).1

/-- C1 (code defect): the task submitted to `visitor.dispatch` is the closure
`call_accept`, which reads the enclosing frame's loop variable `resource` at
execution time rather than capturing the yielded child.  Under a dispatcher
that defers execution until after further siblings have been enumerated — an
execution strategy the engine explicitly permits — both tasks the organization
frame submits resolve to the frame's final binding `projB`: the deferred crawl
visits the organization once and project B twice, and never traverses
project A, although the first task was submitted while `resource` was bound to
project A.  This contradicts the claim that each submitted task performs the
traversal of exactly the child yielded at submission time. -/
theorem dispatch_task_late_binding_bug :
    ((enumPhase 5 orgRoot clientAB []).tasks = [(projB, [orgRoot]), (projB, [orgRoot])]) ∧
    (projA ≠ projB) ∧
    (deferredRun 5 orgRoot clientAB
        = [Event.visit orgRoot [], Event.visit projB [orgRoot], Event.visit projB [orgRoot]]) ∧
    (Event.visit projA [orgRoot] ∉ deferredRun 5 orgRoot clientAB) := by
  refine ⟨by decide, by decide, by decide, by decide⟩

theorem acceptI_leaf_err_none (fuel : Nat) (ch : Res) (c : Client) (ns : List Res)
    (hwf : ch.wf) (hl : ch.is_leaf = true) : (acceptI fuel ch c ns).2 = none := by
  cases fuel with
  | zero => rfl
  | succ n =>
      have hlen : ((containsOf ch.rtype).length == 0) = true := by
        rw [← hwf.2]
        exact hl
      have hcont : ch.contains = [] := by
        rw [hwf.1]
        exact List.length_eq_zero.mp (by simpa using hlen)
      show (foldIters (fun x ns2 => acceptI n x c ns2) c ch ns ch.contains).2 = none
      rw [hcont]
      rfl

theorem foldChildren_wf_err_none (fuel : Nat) (r : Res) (c : Client) (stack : List Res)
    (ys : List Res) (hys : ∀ ch ∈ ys, ch.wf) :
    (foldChildren (fun x ns => acceptI fuel x c ns) r stack ys).2 = none := by
  induction ys with
  | nil => rfl
  | cons y rest ih =>
      have ih' := ih (fun x hx => hys x (List.mem_cons_of_mem _ hx))
      simp only [foldChildren]
      by_cases hl : y.is_leaf
      · rw [if_pos hl]
        have herr := acceptI_leaf_err_none fuel y c (stack ++ [r])
          (hys y (List.mem_cons_self _ _)) hl
        rcases hg : acceptI fuel y c (stack ++ [r]) with ⟨t, eo⟩
        rw [hg] at herr
        cases eo with
        | some e0 => exact Option.noConfusion herr
        | none => exact ih'
      · rw [if_neg hl]
        exact ih'

theorem foldChildren_sub_mem (go : Res → List Res → List Event × Option PyErr)
    (r : Res) (stack : List Res) (ys : List Res) (ch : Res) (h : ch ∈ ys)
    (he : (foldChildren go r stack ys).2 = none) :
    ∀ ev ∈ (go ch (stack ++ [r])).1, ev ∈ (foldChildren go r stack ys).1 := by
  intro ev hev
  induction ys with
  | nil => simp at h
  | cons y rest ih =>
      simp only [foldChildren] at he ⊢
      by_cases hl : y.is_leaf
      · rw [if_pos hl] at he ⊢
        rcases hg : go y (stack ++ [r]) with ⟨t, e⟩
        rw [hg] at he
        cases e with
        | some e0 => exact Option.noConfusion he
        | none =>
            have he' : (foldChildren go r stack rest).2 = none := he
            rcases List.mem_cons.1 h with rfl | hrest
            · have hev' : ev ∈ t := by rw [hg] at hev; exact hev
              exact List.mem_cons_of_mem _ (List.mem_append_left _ hev')
            · exact List.mem_cons_of_mem _ (List.mem_append_right _ (ih hrest he'))
      · rw [if_neg hl] at he ⊢
        have he' : (foldChildren go r stack rest).2 = none := he
        rcases List.mem_cons.1 h with rfl | hrest
        · exact List.mem_cons_of_mem _ (List.mem_append_left _ hev)
        · exact List.mem_cons_of_mem _ (List.mem_append_right _ (ih hrest he'))

theorem foldIters_cons_clean (go : Res → List Res → List Event × Option PyErr)
    (c : Client) (r : Res) (stack : List Res) (ik2 : IterKind) (rest2 : List IterKind)
    (herr : (iterRun ik2 r c).err = none)
    (hcn : (foldChildren go r stack (iterRun ik2 r c).yields).2 = none) :
    foldIters go c r stack (ik2 :: rest2)
      = ((foldChildren go r stack (iterRun ik2 r c).yields).1
           ++ (foldIters go c r stack rest2).1,
         (foldIters go c r stack rest2).2) := by
  simp only [foldIters]
  rcases hfc : foldChildren go r stack (iterRun ik2 r c).yields with ⟨t1, e1⟩
  rw [hfc] at hcn
  cases e1 with
  | some e0 => exact Option.noConfusion hcn
  | none => rw [herr]

theorem foldIters_clean_prefix (fuel : Nat) (c : Client) (r : Res) (stack : List Res)
    (pre rest2 : List IterKind)
    (hpre : ∀ ik' ∈ pre, (iterRun ik' r c).err = none) :
    foldIters (fun x ns => acceptI fuel x c ns) c r stack (pre ++ rest2)
      = ((foldIters (fun x ns => acceptI fuel x c ns) c r stack pre).1
           ++ (foldIters (fun x ns => acceptI fuel x c ns) c r stack rest2).1,
         (foldIters (fun x ns => acceptI fuel x c ns) c r stack rest2).2) := by
  induction pre with
  | nil => rfl
  | cons ik' pre' ih =>
      have herr := hpre ik' (List.mem_cons_self _ _)
      have hcn := foldChildren_wf_err_none fuel r c stack (iterRun ik' r c).yields
        (fun ch hch => (iterRun_mem_wf hch).1)
      have h1 := foldIters_cons_clean (fun x ns => acceptI fuel x c ns) c r stack ik'
        (pre' ++ rest2) herr hcn
      have h2 := foldIters_cons_clean (fun x ns => acceptI fuel x c ns) c r stack ik'
        pre' herr hcn
      rw [List.cons_append, h1, h2, ih (fun x hx => hpre x (List.mem_cons_of_mem _ hx))]
      simp [List.append_assoc]

theorem foldIters_clean_err_none (fuel : Nat) (c : Client) (r : Res) (stack : List Res)
    (pre : List IterKind)
    (hpre : ∀ ik' ∈ pre, (iterRun ik' r c).err = none) :
    (foldIters (fun x ns => acceptI fuel x c ns) c r stack pre).2 = none := by
  induction pre with
  | nil => rfl
  | cons ik' pre' ih =>
      have herr := hpre ik' (List.mem_cons_self _ _)
      have hcn := foldChildren_wf_err_none fuel r c stack (iterRun ik' r c).yields
        (fun ch hch => (iterRun_mem_wf hch).1)
      rw [foldIters_cons_clean (fun x ns => acceptI fuel x c ns) c r stack ik' pre'
        herr hcn]
      exact ih (fun x hx => hpre x (List.mem_cons_of_mem _ hx))

theorem foldIters_sub_mem (go : Res → List Res → List Event × Option PyErr)
    (c : Client) (r : Res) (stack : List Res) (iks : List IterKind)
    (ik : IterKind) (ch : Res) (hik : ik ∈ iks)
    (hch : ch ∈ (iterRun ik r c).yields)
    (he : (foldIters go c r stack iks).2 = none) :
    ∀ ev ∈ (go ch (stack ++ [r])).1, ev ∈ (foldIters go c r stack iks).1 := by
  intro ev hev
  induction iks with
  | nil => simp at hik
  | cons ik' rest ih =>
      simp only [foldIters] at he ⊢
      rcases hfc : foldChildren go r stack (iterRun ik' r c).yields with ⟨t1, e1⟩
      rw [hfc] at he
      cases e1 with
      | some e0 => exact Option.noConfusion he
      | none =>
          rcases herr : (iterRun ik' r c).err with _ | e0
          · rw [herr] at he
            have he' : (foldIters go c r stack rest).2 = none := he
            rcases List.mem_cons.1 hik with rfl | hikrest
            · have hm := foldChildren_sub_mem go r stack (iterRun ik r c).yields ch hch
                (by rw [hfc]) ev hev
              rw [hfc] at hm
              exact List.mem_append_left _ hm
            · exact List.mem_append_right _ (ih hikrest he')
          · rw [herr] at he
            exact Option.noConfusion he

theorem foldIters_err_head (go : Res → List Res → List Event × Option PyErr)
    (c : Client) (r : Res) (stack : List Res) (ik : IterKind) (rest : List IterKind)
    (ys : List Res) (e : PyErr)
    (hrun : iterRun ik r c = IterOut.mk ys (some e))
    (hys : (foldChildren go r stack ys).2 = none) :
    foldIters go c r stack (ik :: rest) = ((foldChildren go r stack ys).1, some e) := by
  simp only [foldIters, hrun]
  rcases hfc : foldChildren go r stack ys with ⟨t1, e1⟩
  rw [hfc] at hys
  cases e1 with
  | some e0 => exact Option.noConfusion hys
  | none => rfl

/-- A second organization, with a different key than `orgRoot`. -/
def orgRoot2 : Res := createNew ResType.organization [("name", "organizations/2")]

/-- Client whose project listing yields project A's record and then raises an
opaque client error. -/
def clientProjErr : Client :=
  { Client.trivialC with
      iter_projects := fun _ => ListOut.mk [pAD] (some (PyErr.clientError 7)) }

/-- Client whose folder listing raises the same opaque client error before any
yield. -/
def clientFoldErr : Client :=
  { Client.trivialC with
      iter_folders := fun _ => ListOut.mk [] (some (PyErr.clientError 7)) }

/-- C5 counterexample: when a child-iterator's client call raises, what
propagates out of `accept` is the raw client error itself — there is no
try/except in `accept` and no wrapping anywhere in the module.  The very same
error value propagates from two organizations with different keys, and from a
failure in a different iterator kind, so the propagated error carries neither
the resource's key nor the iterator kind, contradicting the claimed "tagged
crawl error". -/
theorem crawl_error_untagged_counterexample :
    ((acceptI 5 orgRoot clientProjErr []).2 = some (PyErr.clientError 7)) ∧
    ((acceptI 5 orgRoot2 clientProjErr []).2 = some (PyErr.clientError 7)) ∧
    (orgRoot.key ≠ orgRoot2.key) ∧
    ((acceptI 5 orgRoot clientFoldErr []).2 = some (PyErr.clientError 7)) :=
  ⟨by decide, by decide, by decide, by decide⟩

/-- C5 (amended): if a child-iterator's underlying client call raises — the
failing iterator may sit at any position among the resource's registered
iterators, its predecessors having completed cleanly — the raw client error
propagates out of that `accept` call unchanged; all work already performed is
preserved: every non-leaf child yielded before the failure, whether by the
failing iterator or an earlier one, keeps its `dispatch` submission in the
trace, and every leaf one keeps its inline recursion and its visit; and no
iterator after the failing one is started — the run equals the run in which
the failing iterator is the resource's last. -/
theorem crawl_error_propagation (fuel : Nat) (r : Res) (c : Client)
    (stack : List Res) (pre post : List IterKind) (ik : IterKind)
    (ys : List Res) (e : PyErr)
    (hc : r.contains = pre ++ ik :: post)
    (hpre : ∀ ik' ∈ pre, (iterRun ik' r c).err = none)
    (hrun : iterRun ik r c = IterOut.mk ys (some e)) :
    ((acceptI (fuel + 2) r c stack).2 = some e) ∧
    (∀ ch ∈ ys,
        (ch.is_leaf = false →
            Event.dispatchSubmit ch (stack ++ [r]) ∈ (acceptI (fuel + 2) r c stack).1) ∧
        (ch.is_leaf = true →
            Event.inlineRecurse ch (stack ++ [r]) ∈ (acceptI (fuel + 2) r c stack).1 ∧
            Event.visit ch (stack ++ [r]) ∈ (acceptI (fuel + 2) r c stack).1)) ∧
    (∀ ik' ∈ pre, ∀ ch ∈ (iterRun ik' r c).yields,
        (ch.is_leaf = false →
            Event.dispatchSubmit ch (stack ++ [r]) ∈ (acceptI (fuel + 2) r c stack).1) ∧
        (ch.is_leaf = true →
            Event.inlineRecurse ch (stack ++ [r]) ∈ (acceptI (fuel + 2) r c stack).1 ∧
            Event.visit ch (stack ++ [r]) ∈ (acceptI (fuel + 2) r c stack).1)) ∧
    (foldIters (fun x ns => acceptI (fuel + 1) x c ns) c r stack (pre ++ ik :: post)
        = foldIters (fun x ns => acceptI (fuel + 1) x c ns) c r stack (pre ++ [ik])) := by
  have hyseq : (iterRun ik r c).yields = ys := by rw [hrun]
  have hysw : ∀ ch ∈ ys, ch.wf := by
    intro ch hch
    exact (iterRun_mem_wf (show ch ∈ (iterRun ik r c).yields by rw [hyseq]; exact hch)).1
  have hcn : (foldChildren (fun x ns => acceptI (fuel + 1) x c ns) r stack ys).2 = none :=
    foldChildren_wf_err_none (fuel + 1) r c stack ys hysw
  have hhead := foldIters_err_head (fun x ns => acceptI (fuel + 1) x c ns) c r stack
    ik post ys e hrun hcn
  have hhead1 := foldIters_err_head (fun x ns => acceptI (fuel + 1) x c ns) c r stack
    ik [] ys e hrun hcn
  have hsplit := foldIters_clean_prefix (fuel + 1) c r stack pre (ik :: post) hpre
  have hsplit1 := foldIters_clean_prefix (fuel + 1) c r stack pre [ik] hpre
  have hpreerr := foldIters_clean_err_none (fuel + 1) c r stack pre hpre
  have htr : (acceptI (fuel + 2) r c stack).1
      = Event.visit r stack
          :: (foldIters (fun x ns => acceptI (fuel + 1) x c ns) c r stack r.contains).1 := rfl
  have herr : (acceptI (fuel + 2) r c stack).2
      = (foldIters (fun x ns => acceptI (fuel + 1) x c ns) c r stack r.contains).2 := rfl
  have htrace : (acceptI (fuel + 2) r c stack).1
      = Event.visit r stack
          :: ((foldIters (fun x ns => acceptI (fuel + 1) x c ns) c r stack pre).1
              ++ (foldChildren (fun x ns => acceptI (fuel + 1) x c ns) r stack ys).1) := by
    rw [htr, hc, hsplit, hhead]
  refine ⟨?_, ?_, ?_, ?_⟩
  · rw [herr, hc, hsplit, hhead]
  · intro ch hch
    have hcomp := foldChildren_complete (fun x ns => acceptI (fuel + 1) x c ns) r stack ys
      ch hch hcn
    have hv : Event.visit ch (stack ++ [r])
        ∈ (acceptI (fuel + 1) ch c (stack ++ [r])).1 := by
      have h0 : (acceptI (fuel + 1) ch c (stack ++ [r])).1
          = Event.visit ch (stack ++ [r])
              :: (foldIters (fun x ns => acceptI fuel x c ns) c ch (stack ++ [r])
                    ch.contains).1 := rfl
      rw [h0]
      exact List.mem_cons_self _ _
    have hsm := foldChildren_sub_mem (fun x ns => acceptI (fuel + 1) x c ns) r stack ys
      ch hch hcn _ hv
    refine ⟨fun hlf => ?_, fun hlf => ⟨?_, ?_⟩⟩
    · rw [htrace]
      exact List.mem_cons_of_mem _ (List.mem_append_right _ (hcomp.2 hlf))
    · rw [htrace]
      exact List.mem_cons_of_mem _ (List.mem_append_right _ (hcomp.1 hlf))
    · rw [htrace]
      exact List.mem_cons_of_mem _ (List.mem_append_right _ hsm)
  · intro ik' hik' ch hch
    have hcomp := foldIters_complete (fun x ns => acceptI (fuel + 1) x c ns) c r stack pre
      ik' ch hik' hch hpreerr
    have hv : Event.visit ch (stack ++ [r])
        ∈ (acceptI (fuel + 1) ch c (stack ++ [r])).1 := by
      have h0 : (acceptI (fuel + 1) ch c (stack ++ [r])).1
          = Event.visit ch (stack ++ [r])
              :: (foldIters (fun x ns => acceptI fuel x c ns) c ch (stack ++ [r])
                    ch.contains).1 := rfl
      rw [h0]
      exact List.mem_cons_self _ _
    have hsm := foldIters_sub_mem (fun x ns => acceptI (fuel + 1) x c ns) c r stack pre
      ik' ch hik' hch hpreerr _ hv
    refine ⟨fun hlf => ?_, fun hlf => ⟨?_, ?_⟩⟩
    · rw [htrace]
      exact List.mem_cons_of_mem _ (List.mem_append_left _ (hcomp.2 hlf))
    · rw [htrace]
      exact List.mem_cons_of_mem _ (List.mem_append_left _ (hcomp.1 hlf))
    · rw [htrace]
      exact List.mem_cons_of_mem _ (List.mem_append_left _ hsm)
  · rw [hsplit, hsplit1, hhead, hhead1]

/-- Record of the scenario's Cloud SQL instance. -/
def csqlD : Data := [("name", "sql-1")]

/-- Client whose Cloud SQL listing yields one instance record and then raises;
it fails a project's only iterator, whose children are leaves. -/
def clientSqlErr : Client :=
  { Client.trivialC with
      iter_cloudsqlinstances := fun _ =>
        ListOut.mk [csqlD] (some (PyErr.clientError 9)) }

/-- Client whose project listing yields project A cleanly and whose folder
listing — the organization's second iterator — raises. -/
def clientPAFoldErr : Client :=
  { Client.trivialC with
      iter_projects := fun _ => ListOut.mk [pAD] none,
      iter_folders := fun _ => ListOut.mk [] (some (PyErr.clientError 8)) }

/-- Witness for C5 (amended): a failure of the project's CloudSqlIterator
preserves the leaf child's inline recursion and visit, and a failure of the
organization's second iterator (FolderIterator) preserves project A's dispatch
submission from the clean first iterator. -/
theorem crawl_error_propagation_witness :
    ((acceptI 5 projA clientSqlErr []).2 = some (PyErr.clientError 9)) ∧
    (Event.inlineRecurse (createNew ResType.cloudsqlinstance csqlD) ([] ++ [projA])
        ∈ (acceptI 5 projA clientSqlErr []).1) ∧
    (Event.visit (createNew ResType.cloudsqlinstance csqlD) ([] ++ [projA])
        ∈ (acceptI 5 projA clientSqlErr []).1) ∧
    ((acceptI 5 orgRoot clientPAFoldErr []).2 = some (PyErr.clientError 8)) ∧
    (Event.dispatchSubmit projA ([] ++ [orgRoot])
        ∈ (acceptI 5 orgRoot clientPAFoldErr []).1) := by
  have hA := crawl_error_propagation 3 projA clientSqlErr [] [] [] IterKind.cloudSqlIter
    [createNew ResType.cloudsqlinstance csqlD] (PyErr.clientError 9)
    (by decide) (by simp) (by decide)
  have hB := crawl_error_propagation 3 orgRoot clientPAFoldErr [] [IterKind.projectIter]
    [] IterKind.folderIter [] (PyErr.clientError 8)
    (by decide) (by decide) (by decide)
  have hAch := hA.2.1 (createNew ResType.cloudsqlinstance csqlD) (List.mem_cons_self _ _)
  exact ⟨hA.1, (hAch.2 rfl).1, (hAch.2 rfl).2, hB.1,
    (hB.2.2.1 IterKind.projectIter (List.mem_cons_self _ _) projA (by decide)).1 rfl⟩

/-- C3: for every memoizing policy accessor and resource instance, the first
call evaluates the client fetch once and caches the result on success; a
second call on the same instance evaluates no further client fetch and returns
a value identical to the first result even against a different client (changed
client data); and a failed first fetch caches nothing, so the next call
evaluates the client fetch again. -/
theorem policy_accessor_memoization (k : AccKind) (c1 c2 : Client) (r : Res)
    (stack stack2 : List Res) (hs : supportsCached k r.rtype = true) :
    (∀ v, fetchOf k c1 r stack = Except.ok v →
        runAccessor k c1 r stack none = (Except.ok v, some v, 1) ∧
        runAccessor k c2 r stack2 (some v) = (Except.ok v, some v, 0)) ∧
    (∀ e, fetchOf k c1 r stack = Except.error e →
        runAccessor k c1 r stack none = (Except.error e, none, 1) ∧
        runAccessor k c2 r stack none = cachedCall (fetchOf k c2 r stack) none ∧
        (runAccessor k c2 r stack none).2.2 = 1) := by
  have hra : ∀ (c : Client) (st : List Res) (cache : Option (Option String)),
      runAccessor k c r st cache = cachedCall (fetchOf k c r st) cache := by
    intro c st cache
    obtain ⟨rt, d, lf, cont⟩ := r
    cases k <;> cases rt <;> first | rfl | simp [supportsCached] at hs
  refine ⟨?_, ?_⟩
  · intro v hv
    constructor
    · rw [hra c1 stack none, hv]
      rfl
    · rw [hra c2 stack2 (some v)]
      rfl
  · intro e he
    refine ⟨?_, ?_, ?_⟩
    · rw [hra c1 stack none, he]
      rfl
    · exact hra c2 stack none
    · rw [hra c2 stack none]
      rcases hf : fetchOf k c2 r stack with e2 | v2 <;> simp [cachedCall]

/-- Client returning a concrete organization IAM policy. -/
def orgPolicyClient : Client :=
  { Client.trivialC with
      get_organization_iam_policy := fun _ => Except.ok (some "POLICY1") }

/-- Witness for C3: first call on `orgRoot` fetches and caches `POLICY1`; the
second call — against a client whose data has changed to `None` — makes no
client call and still returns `POLICY1`. -/
theorem policy_accessor_memoization_witness :
    (runAccessor AccKind.iam orgPolicyClient orgRoot [] none
        = (Except.ok (some "POLICY1"), some (some "POLICY1"), 1)) ∧
    (runAccessor AccKind.iam Client.trivialC orgRoot [] (some (some "POLICY1"))
        = (Except.ok (some "POLICY1"), some (some "POLICY1"), 0)) :=
  (policy_accessor_memoization AccKind.iam orgPolicyClient Client.trivialC orgRoot
    [] [] (by decide)).1 (some "POLICY1") (by decide)

theorem key_of_lookup (rt : ResType) (d : Data) :
    (∀ v, lookupData d (keyField rt) = some v → (createNew rt d).key = Except.ok v) ∧
    (lookupData d (keyField rt) = none →
        (createNew rt d).key = Except.error (PyErr.keyError (keyField rt) d)) := by
  constructor
  · intro v hv
    show getItem d (keyField rt) = Except.ok v
    unfold getItem
    rw [hv]
  · intro h
    show getItem d (keyField rt) = Except.error (PyErr.keyError (keyField rt) d)
    unfold getItem
    rw [h]

/-- The per-kind primary identifier field as the amended claim states it:
Organization → `name`; Project → `projectId`; DataSet → `datasetId`;
CloudSqlInstance → `name`; Folder, Bucket, GcsObject, AppEngineApp, Instance,
Firewall → `id`. -/
def amendedKeyField : ResType → String
  | ResType.organization => "name"
  | ResType.project => "projectId"
  | ResType.dataset => "datasetId"
  | ResType.cloudsqlinstance => "name"
  | ResType.folder => "id"
  | ResType.bucket => "id"
  | ResType.object => "id"
  | ResType.appengineapp => "id"
  | ResType.vminstance => "id"
  | ResType.firewall => "id"

/-- C6 counterexample: a CloudSqlInstance record carrying both an `id` field
(`"i"`) and a `name` field (`"n"`): `key()` returns the `name` value, not the
`id` value the claim designates for this kind. -/
theorem cloudsql_key_counterexample :
    ((createNew ResType.cloudsqlinstance [("id", "i"), ("name", "n")]).key
        = Except.ok "n") ∧
    ((createNew ResType.cloudsqlinstance [("id", "i"), ("name", "n")]).key
        ≠ Except.ok "i") ∧
    (lookupData [("id", "i"), ("name", "n")] "id" = some "i") :=
  ⟨by decide, by decide, by decide⟩

/-- C6 (amended): `key()` returns the kind-specific primary identifier field —
`name` for Organization and for CloudSqlInstance, `projectId` for Project,
`datasetId` for DataSet, `id` for every other kind; if the field is present its
value is returned, and if it is absent `key()` fails with a missing-field
`KeyError` whose diagnostic includes the raw record. -/
theorem resource_key_amended (rt : ResType) (d : Data) :
    (keyField rt = amendedKeyField rt) ∧
    (∀ v, lookupData d (keyField rt) = some v → (createNew rt d).key = Except.ok v) ∧
    (lookupData d (keyField rt) = none →
        (createNew rt d).key = Except.error (PyErr.keyError (keyField rt) d)) :=
  ⟨by cases rt <;> rfl, (key_of_lookup rt d).1, (key_of_lookup rt d).2⟩

/-- Witness for C6 (amended) at a CloudSqlInstance with the field present and
an Organization with the field absent. -/
theorem resource_key_amended_witness :
    ((createNew ResType.cloudsqlinstance [("name", "n")]).key = Except.ok "n") ∧
    ((createNew ResType.organization []).key
        = Except.error (PyErr.keyError "name" [])) :=
  ⟨(resource_key_amended ResType.cloudsqlinstance [("name", "n")]).2.1 "n" (by decide),
   (resource_key_amended ResType.organization []).2.2 (by decide)⟩

/-- A folder resource, as the registry constructs it. -/
def folderRes : Res := createNew ResType.folder [("id", "folder-1")]

/-- C7 counterexample: `Folder.getIamPolicy` raises `NotImplementedError`
rather than returning "no policy" (`None`). -/
theorem folder_iam_policy_counterexample :
    (runAccessor AccKind.iam Client.trivialC folderRes [] none
        = (Except.error PyErr.notImplemented, none, 0)) ∧
    ((Except.error PyErr.notImplemented : Except PyErr (Option String))
        ≠ Except.ok none) :=
  ⟨by decide, by decide⟩

/-- C7 (amended): for every capability a kind does not support, the accessor
returns "no policy" (`None`) without error and without touching cache or
client — except `Folder.getIamPolicy`, which raises `NotImplementedError`. -/
theorem unsupported_policy_amended (k : AccKind) (c : Client) (r : Res)
    (stack : List Res) (cache : Option (Option String))
    (hu : supportsCached k r.rtype = false) :
    (¬(k = AccKind.iam ∧ r.rtype = ResType.folder) →
        runAccessor k c r stack cache = (Except.ok none, cache, 0)) ∧
    ((k = AccKind.iam ∧ r.rtype = ResType.folder) →
        runAccessor k c r stack cache = (Except.error PyErr.notImplemented, cache, 0)) := by
  obtain ⟨rt, d, lf, cont⟩ := r
  cases k <;> cases rt <;>
    first
      | exact ⟨fun hne => absurd ⟨rfl, rfl⟩ hne, fun _ => rfl⟩
      | exact ⟨fun _ => rfl, fun hyes => AccKind.noConfusion hyes.1⟩
      | exact ⟨fun _ => rfl, fun hyes => ResType.noConfusion hyes.2⟩
      | simp [supportsCached] at hu

/-- Witness for C7 (amended): storage policy on an organization yields `None`
without error; IAM policy on a folder raises. -/
theorem unsupported_policy_amended_witness :
    (runAccessor AccKind.gcs Client.trivialC orgRoot [] none
        = (Except.ok none, none, 0)) ∧
    (runAccessor AccKind.iam Client.trivialC folderRes [] none
        = (Except.error PyErr.notImplemented, none, 0)) :=
  ⟨(unsupported_policy_amended AccKind.gcs Client.trivialC orgRoot [] none
      (by decide)).1 (fun h => AccKind.noConfusion h.1),
   (unsupported_policy_amended AccKind.iam Client.trivialC folderRes [] none
      (by decide)).2 ⟨rfl, rfl⟩⟩

/-- C8 counterexample: there is no default `enumerable()` — the base `Resource`
class does not define the method, so calling it on a non-Project kind (here an
organization) raises `AttributeError` instead of returning true. -/
theorem enumerable_no_default_counterexample :
    (orgRoot.enumerable = Except.error (PyErr.attributeError "enumerable")) ∧
    (orgRoot.enumerable ≠ Except.ok true) :=
  ⟨by decide, by decide⟩

/-- The six iterators whose `iter()` is guarded by
`if self.resource.enumerable():`. -/
def guardedIters : List IterKind :=
  [IterKind.bucketIter, IterKind.dataSetIter, IterKind.appEngineAppIter,
   IterKind.instanceIter, IterKind.firewallIter, IterKind.cloudSqlIter]

/-- C8 (amended): only `Project` defines `enumerable()`, and it returns false
exactly when the record's `lifecycleState` equals `DELETE_REQUESTED`; for a
deletion-requested project every guarded iterator yields zero children without
touching the client, and the project's whole traversal is a single visit with
zero inline recursions and zero dispatch submissions.  Other kinds have no
`enumerable()` method at all (claim C8's "default true" does not hold; see the
counterexample). -/
theorem project_delete_requested (d : Data)
    (hd : lookupData d "lifecycleState" = some "DELETE_REQUESTED") :
    ((createNew ResType.project d).enumerable = Except.ok false) ∧
    (∀ (c : Client), ∀ ik ∈ guardedIters,
        iterRun ik (createNew ResType.project d) c = IterOut.mk [] none) ∧
    (∀ (c : Client) (stack : List Res) (fuel : Nat),
        acceptI (fuel + 1) (createNew ResType.project d) c stack
          = ([Event.visit (createNew ResType.project d) stack], none)) ∧
    (∀ (d' : Data) (s : String), lookupData d' "lifecycleState" = some s →
        ((createNew ResType.project d').enumerable = Except.ok false
          ↔ s = "DELETE_REQUESTED")) := by
  have henum : (createNew ResType.project d).enumerable = Except.ok false := by
    show Res.enumerable (Res.mk ResType.project d _ _) = Except.ok false
    simp only [Res.enumerable, getItem, hd]
    decide
  have hiter : ∀ (c : Client), ∀ ik ∈ guardedIters,
      iterRun ik (createNew ResType.project d) c = IterOut.mk [] none := by
    intro c ik hik
    simp only [guardedIters, List.mem_cons, List.not_mem_nil, or_false] at hik
    rcases hik with rfl | rfl | rfl | rfl | rfl | rfl <;>
      simp only [iterRun, henum]
  refine ⟨henum, hiter, ?_, ?_⟩
  · intro c stack fuel
    have h1 := hiter c IterKind.cloudSqlIter (by simp [guardedIters])
    have hfi : foldIters (fun ch ns => acceptI fuel ch c ns) c
        (createNew ResType.project d) stack [IterKind.cloudSqlIter] = ([], none) := by
      simp [foldIters, h1, foldChildren]
    show (Event.visit (createNew ResType.project d) stack
        :: (foldIters (fun ch ns => acceptI fuel ch c ns) c
              (createNew ResType.project d) stack [IterKind.cloudSqlIter]).1,
      (foldIters (fun ch ns => acceptI fuel ch c ns) c
          (createNew ResType.project d) stack [IterKind.cloudSqlIter]).2)
      = ([Event.visit (createNew ResType.project d) stack], none)
    rw [hfi]
  · intro d' s hs
    show Res.enumerable (Res.mk ResType.project d' _ _) = Except.ok false ↔ _
    simp only [Res.enumerable, getItem, hs]
    constructor
    · intro h
      have hb : (!(["DELETE_REQUESTED"].contains s)) = false := by
        exact (Except.ok.injEq _ _).mp h
      have : (["DELETE_REQUESTED"].contains s) = true := by
        cases hc : ["DELETE_REQUESTED"].contains s
        · rw [hc] at hb
          exact Bool.noConfusion hb
        · rfl
      simpa using this
    · intro h
      subst h
      decide

/-- Record of a project whose lifecycle signals deletion requested. -/
def pDelD : Data :=
  [("projectId", "project-del"), ("lifecycleState", "DELETE_REQUESTED")]

/-- Witness for C8 (amended) at the concrete deletion-requested project. -/
theorem project_delete_requested_witness :
    ((createNew ResType.project pDelD).enumerable = Except.ok false) ∧
    (iterRun IterKind.cloudSqlIter (createNew ResType.project pDelD) clientAB
        = IterOut.mk [] none) ∧
    (acceptI 3 (createNew ResType.project pDelD) clientAB []
        = ([Event.visit (createNew ResType.project pDelD) []], none)) :=
  ⟨(project_delete_requested pDelD (by decide)).1,
   (project_delete_requested pDelD (by decide)).2.1 clientAB IterKind.cloudSqlIter
      (by simp [guardedIters]),
   (project_delete_requested pDelD (by decide)).2.2.1 clientAB [] 2⟩

/-- C9 counterexample: constructing an organization through the registry from
an empty raw record — one lacking the kind's `name` primary-id field —
succeeds; no missing-field validation happens at construction time. -/
theorem create_missing_id_counterexample :
    (createNewE ResType.organization []
        = Except.ok (Res.mk ResType.organization [] false
            [IterKind.projectIter, IterKind.folderIter])) ∧
    (createNewE ResType.organization []
        ≠ Except.error (PyErr.keyError "name" [])) :=
  ⟨by decide, by decide⟩

/-- C9 (amended): for every kind, construction from a record lacking the
kind's primary-id field still succeeds — `create_new` never inspects the
record — and the missing-field `KeyError` (with the raw record in its
diagnostic) surfaces only when `key()` is first called. -/
theorem create_missing_id_amended (rt : ResType) (d : Data)
    (h : lookupData d (keyField rt) = none) :
    (createNewE rt d = Except.ok (createNew rt d)) ∧
    ((createNew rt d).key = Except.error (PyErr.keyError (keyField rt) d)) :=
  ⟨rfl, (key_of_lookup rt d).2 h⟩

/-- Witness for C9 (amended) at a project with an empty record. -/
theorem create_missing_id_amended_witness :
    (createNewE ResType.project [] = Except.ok (createNew ResType.project [])) ∧
    ((createNew ResType.project []).key
        = Except.error (PyErr.keyError "projectId" [])) :=
  create_missing_id_amended ResType.project [] (by decide)

/-- C10: constructing a `Resource` directly with the `contains` argument
omitted or `None` always raises `TypeError`, because `len(contains)` is
evaluated for the leaf flag before the `None` default is normalized; an
explicit list always succeeds, and every registry factory entry supplies one,
so registry construction always succeeds. -/
theorem contains_none_type_error :
    (∀ (rt : ResType) (d : Data), Resource.init rt d none = Except.error PyErr.typeError) ∧
    (∀ (rt : ResType) (d : Data) (l : List IterKind),
        Resource.init rt d (some l) = Except.ok (Res.mk rt d (l.length == 0) l)) ∧
    (∀ (rt : ResType) (d : Data), createNewE rt d = Except.ok (createNew rt d)) :=
  ⟨fun _ _ => rfl, fun _ _ _ => rfl, fun _ _ => rfl⟩
